import Mathlib

/-!
Verification of the css-colors color-model engine.

The crate's `lib.rs` declares the `Color` trait and its test-suite, and
`integrations/serde.rs` holds the hex-string (de)serialization code.  The
channel value types and the conversion/adjustment implementations live in
`ratio.rs`, `angle.rs`, `rgb.rs` and `hsl.rs`, which are not under `src/`;
those parts are modelled from the specification (each such definition carries
a doc comment starting with `Modelled from the spec:`).  The serde visitors
are embedded directly from `integrations/serde.rs`.
-/

set_option maxRecDepth 8000

namespace CssColors

/-- Round a nonnegative fraction `a / b` (with `b > 0`) to the nearest natural
number, rounding halves up — which is round-half-away-from-zero on
nonnegative values. -/
def roundNatDiv (a b : ℕ) : ℕ := (2 * a + b) / (2 * b)

/-- Round a rational to the nearest integer, rounding halves away from zero
(the behaviour of Rust's `f32::round`). -/
def roundHalfAway (q : ℚ) : ℤ := if 0 ≤ q then ⌊q + 1 / 2⌋ else ⌈q - 1 / 2⌉

/-- Clamp an integer into the byte range `0–255`. -/
def byteClamp (i : ℤ) : Fin 256 :=
  if h : i < 0 then ⟨0, by omega⟩
  else if h2 : i ≤ 255 then ⟨i.toNat, by omega⟩
  else ⟨255, by omega⟩

/-- Modelled from the spec: the `Ratio` value type of the missing `ratio.rs` —
a bounded fractional quantity stored as a raw byte `0–255` (§3).  The Rust
type is a tuple struct `Ratio(u8)`. -/
structure Ratio8 where
  raw : Fin 256
deriving DecidableEq, Repr

/-- Modelled from the spec: `Ratio` construction from a percentage rounds
`percentage * 255 / 100` half away from zero; out-of-range input saturates
(§3, §7 of the spec; `ratio.rs` is not under `src/`). -/
def Ratio8.from_percentage (p : ℕ) : Ratio8 :=
  if h : roundNatDiv (p * 255) 100 ≤ 255 then ⟨⟨roundNatDiv (p * 255) 100, by omega⟩⟩
  else ⟨⟨255, by omega⟩⟩

/-- Modelled from the spec: construction from a raw byte is exact (§3). -/
def Ratio8.from_u8 (b : Fin 256) : Ratio8 := ⟨b⟩

/-- Modelled from the spec: the raw-byte view of a `Ratio` (§3). -/
def Ratio8.as_u8 (r : Ratio8) : Fin 256 := r.raw

/-- Modelled from the spec: the percentage view of a `Ratio`, rounding
`raw * 100 / 255` to the nearest percent (§3). -/
def Ratio8.as_percentage (r : Ratio8) : ℕ := roundNatDiv (r.raw.val * 100) 255

/-- Modelled from the spec: the floating `[0, 1]` view of a `Ratio` (§3),
idealized over the rationals. -/
def Ratio8.as_fraction (r : Ratio8) : ℚ := (r.raw.val : ℚ) / 255

/-- Modelled from the spec: `Ratio` construction from a `[0.0, 1.0]` float
(the alpha argument of the `rgba`/`hsla` constructors), idealized over the
rationals: round `x * 255` to the nearest raw byte, clamping. -/
def Ratio8.from_f32 (q : ℚ) : Ratio8 := ⟨byteClamp (roundHalfAway (q * 255))⟩

/-- Modelled from the spec: subtracting an amount from a `Ratio` clamps to the
`[0, 255]` raw range, never panics, never wraps (§3). -/
def Ratio8.subClamp (a b : Ratio8) : Ratio8 :=
  ⟨⟨a.raw.val - b.raw.val, by have := a.raw.isLt; omega⟩⟩

/-- The fully opaque alpha value (raw 255 / 100%). -/
def Ratio8.opaque : Ratio8 := ⟨255⟩

/-- Shorthand constructor mirroring the crate's `percent(x)` helper. -/
def percent (p : ℕ) : Ratio8 := Ratio8.from_percentage p

/-- Modelled from the spec: the `Angle` value type of the missing `angle.rs` —
an integral degree value held in `[0, 360)` after normalization (§3). -/
structure Angle where
  degrees : ℕ
deriving DecidableEq, Repr

/-- Modelled from the spec: `Angle` construction normalizes any integer input
(including negative) by adding or subtracting multiples of 360 until it lies
in `[0, 360)` (§3).  Lean's `Int.emod` is Euclidean, so `d % 360` is that
normal form. -/
def Angle.new (d : ℤ) : Angle := ⟨(d % 360).toNat⟩

/-- Shorthand constructor mirroring the crate's `deg(x)` helper. -/
def deg (d : ℤ) : Angle := Angle.new d

/-- Modelled from the spec: `Angle` arithmetic (adding a signed delta, as used
by hue rotation) normalizes the result the same way as construction (§3). -/
def Angle.add (a b : Angle) : Angle := Angle.new ((a.degrees : ℤ) + (b.degrees : ℤ))

/-- Modelled from the spec: the `RGB` representation — red, green and blue
channels as ratios (§3). -/
structure RGB where
  r : Ratio8
  g : Ratio8
  b : Ratio8
deriving DecidableEq, Repr

/-- Modelled from the spec: the `RGBA` representation — `RGB` plus an alpha
channel (§3). -/
structure RGBA where
  r : Ratio8
  g : Ratio8
  b : Ratio8
  a : Ratio8
deriving DecidableEq, Repr

/-- Modelled from the spec: the `HSL` representation — hue as an angle,
saturation and lightness as ratios (§3). -/
structure HSL where
  h : Angle
  s : Ratio8
  l : Ratio8
deriving DecidableEq, Repr

/-- Modelled from the spec: the `HSLA` representation — `HSL` plus an alpha
channel (§3). -/
structure HSLA where
  h : Angle
  s : Ratio8
  l : Ratio8
  a : Ratio8
deriving DecidableEq, Repr

/-- The crate's `rgb(r, g, b)` constructor (raw channel bytes). -/
def rgb (r g b : Fin 256) : RGB := ⟨⟨r⟩, ⟨g⟩, ⟨b⟩⟩

/-- The crate's `rgba(r, g, b, a)` constructor (raw bytes plus a float
alpha). -/
def rgba (r g b : Fin 256) (a : ℚ) : RGBA := ⟨⟨r⟩, ⟨g⟩, ⟨b⟩, Ratio8.from_f32 a⟩

/-- The crate's `hsl(h, s, l)` constructor (degrees plus percentages). -/
def hsl (h : ℤ) (s l : ℕ) : HSL :=
  ⟨Angle.new h, Ratio8.from_percentage s, Ratio8.from_percentage l⟩

/-- The crate's `hsla(h, s, l, a)` constructor. -/
def hsla (h : ℤ) (s l : ℕ) (a : ℚ) : HSLA :=
  ⟨Angle.new h, Ratio8.from_percentage s, Ratio8.from_percentage l, Ratio8.from_f32 a⟩

/-- Modelled from the spec: the RGB → HSL conversion engine (§4.2; the
implementation in `rgb.rs` is not under `src/`).  Channels are normalized to
`[0, 1]`; the achromatic case returns immediately with hue 0 and saturation
0; otherwise lightness, saturation and hue are computed from the channel
maximum and minimum and each output is rounded to the nearest unit. -/
def rgb_to_hsl (c : RGB) : HSL :=
  if c.r = c.g ∧ c.g = c.b then
    { h := Angle.new 0
      s := Ratio8.from_percentage 0
      l := Ratio8.from_percentage (roundNatDiv (100 * c.r.raw.val) 255) }
  else
    let r : ℚ := (c.r.raw.val : ℚ) / 255
    let g : ℚ := (c.g.raw.val : ℚ) / 255
    let b : ℚ := (c.b.raw.val : ℚ) / 255
    let mx : ℚ := max r (max g b)
    let mn : ℚ := min r (min g b)
    let lightness : ℚ := (mx + mn) / 2
    let saturation : ℚ :=
      if lightness < 1 / 2 then (mx - mn) / (mx + mn) else (mx - mn) / (2 - mx - mn)
    let raw_hue : ℚ :=
      if mx = r then (g - b) / (mx - mn)
      else if mx = g then 2 + (b - r) / (mx - mn)
      else 4 + (r - g) / (mx - mn)
    let hue_degrees : ℚ := raw_hue * 60
    { h := Angle.new (roundHalfAway hue_degrees)
      s := Ratio8.from_percentage (roundHalfAway (100 * saturation)).toNat
      l := Ratio8.from_percentage (roundHalfAway (100 * lightness)).toNat }

/-- Modelled from the spec: the HSL → RGB conversion engine (§4.3; the
implementation in `hsl.rs` is not under `src/`): the standard chroma-based
algorithm, selecting a component triple by 60° sector and rounding each final
channel to the nearest byte. -/
def hsl_to_rgb (c : HSL) : RGB :=
  let s : ℚ := (c.s.raw.val : ℚ) / 255
  let l : ℚ := (c.l.raw.val : ℚ) / 255
  let chroma : ℚ := (1 - |2 * l - 1|) * s
  let hmod2 : ℚ := ((c.h.degrees % 120 : ℕ) : ℚ) / 60
  let x : ℚ := chroma * (1 - |hmod2 - 1|)
  let m : ℚ := l - chroma / 2
  let sector : ℕ := c.h.degrees / 60
  let comp : ℚ → Ratio8 := fun q => ⟨byteClamp (roundHalfAway (255 * (q + m)))⟩
  if sector = 0 then ⟨comp chroma, comp x, comp 0⟩
  else if sector = 1 then ⟨comp x, comp chroma, comp 0⟩
  else if sector = 2 then ⟨comp 0, comp chroma, comp x⟩
  else if sector = 3 then ⟨comp 0, comp x, comp chroma⟩
  else if sector = 4 then ⟨comp x, comp 0, comp chroma⟩
  else ⟨comp chroma, comp 0, comp x⟩

/-- Modelled from the spec: `RGB::to_rgb` is the identity (§4.1). -/
def RGB.to_rgb (c : RGB) : RGB := c

/-- Modelled from the spec: converting from a non-alpha type to an alpha type
sets alpha to fully opaque (§4.1). -/
def RGB.to_rgba (c : RGB) : RGBA := ⟨c.r, c.g, c.b, Ratio8.opaque⟩

/-- Modelled from the spec: `RGB::to_hsl` runs the conversion engine (§4.1,
§4.2). -/
def RGB.to_hsl (c : RGB) : HSL := rgb_to_hsl c

/-- Modelled from the spec: `RGB::to_hsla` converts and sets alpha fully
opaque (§4.1). -/
def RGB.to_hsla (c : RGB) : HSLA :=
  ⟨(rgb_to_hsl c).h, (rgb_to_hsl c).s, (rgb_to_hsl c).l, Ratio8.opaque⟩

/-- Modelled from the spec: converting away from an alpha-carrying type
discards alpha (§4.1). -/
def RGBA.to_rgb (c : RGBA) : RGB := ⟨c.r, c.g, c.b⟩

/-- Modelled from the spec: `RGBA::to_rgba` is the identity (§4.1). -/
def RGBA.to_rgba (c : RGBA) : RGBA := c

/-- Modelled from the spec: `RGBA::to_hsl` converts the color part and
discards alpha (§4.1, §4.2). -/
def RGBA.to_hsl (c : RGBA) : HSL := rgb_to_hsl ⟨c.r, c.g, c.b⟩

/-- Modelled from the spec: `RGBA::to_hsla` converts the color part and
passes alpha through unchanged (§4.1, §4.2). -/
def RGBA.to_hsla (c : RGBA) : HSLA :=
  ⟨(rgb_to_hsl ⟨c.r, c.g, c.b⟩).h, (rgb_to_hsl ⟨c.r, c.g, c.b⟩).s,
    (rgb_to_hsl ⟨c.r, c.g, c.b⟩).l, c.a⟩

/-- Modelled from the spec: `HSL::to_hsl` is the identity (§4.1). -/
def HSL.to_hsl (c : HSL) : HSL := c

/-- Modelled from the spec: `HSL::to_hsla` sets alpha fully opaque (§4.1). -/
def HSL.to_hsla (c : HSL) : HSLA := ⟨c.h, c.s, c.l, Ratio8.opaque⟩

/-- Modelled from the spec: `HSL::to_rgb` runs the conversion engine (§4.1,
§4.3). -/
def HSL.to_rgb (c : HSL) : RGB := hsl_to_rgb c

/-- Modelled from the spec: `HSL::to_rgba` converts and sets alpha fully
opaque (§4.1). -/
def HSL.to_rgba (c : HSL) : RGBA :=
  ⟨(hsl_to_rgb c).r, (hsl_to_rgb c).g, (hsl_to_rgb c).b, Ratio8.opaque⟩

/-- Modelled from the spec: `HSLA::to_hsl` discards alpha (§4.1). -/
def HSLA.to_hsl (c : HSLA) : HSL := ⟨c.h, c.s, c.l⟩

/-- Modelled from the spec: `HSLA::to_hsla` is the identity (§4.1). -/
def HSLA.to_hsla (c : HSLA) : HSLA := c

/-- Modelled from the spec: `HSLA::to_rgb` converts the color part and
discards alpha (§4.1, §4.3). -/
def HSLA.to_rgb (c : HSLA) : RGB := hsl_to_rgb ⟨c.h, c.s, c.l⟩

/-- Modelled from the spec: `HSLA::to_rgba` converts the color part and
passes alpha through unchanged (§4.1, §4.3). -/
def HSLA.to_rgba (c : HSLA) : RGBA :=
  ⟨(hsl_to_rgb ⟨c.h, c.s, c.l⟩).r, (hsl_to_rgb ⟨c.h, c.s, c.l⟩).g,
    (hsl_to_rgb ⟨c.h, c.s, c.l⟩).b, c.a⟩

/-- Modelled from the spec: `HSL::desaturate` subtracts the amount from the
saturation, clamping at zero (§4.1; `hsl.rs` is not under `src/`). -/
def HSL.desaturate (c : HSL) (amount : Ratio8) : HSL :=
  ⟨c.h, c.s.subClamp amount, c.l⟩

/-- Modelled from the spec: `HSLA::desaturate` preserves the alpha channel
(§4.1). -/
def HSLA.desaturate (c : HSLA) (amount : Ratio8) : HSLA :=
  ⟨c.h, c.s.subClamp amount, c.l, c.a⟩

/-- Modelled from the spec: `RGB::desaturate` converts to HSL, adjusts the
saturation, and converts back (§4.1). -/
def RGB.desaturate (c : RGB) (amount : Ratio8) : RGB :=
  (c.to_hsl.desaturate amount).to_rgb

/-- Modelled from the spec: `RGBA::desaturate` converts to HSLA (preserving
alpha), adjusts the saturation, and converts back (§4.1). -/
def RGBA.desaturate (c : RGBA) (amount : Ratio8) : RGBA :=
  (c.to_hsla.desaturate amount).to_rgba

/-- Modelled from the spec: `greyscale` removes all saturation in the HSL
color space (§4.1 and the `Color::greyscale` doctest in `lib.rs`, whose
examples set saturation to zero). -/
def HSL.greyscale (c : HSL) : HSL := ⟨c.h, ⟨0⟩, c.l⟩

/-- Modelled from the spec: `HSLA::greyscale` preserves the alpha channel. -/
def HSLA.greyscale (c : HSLA) : HSLA := ⟨c.h, ⟨0⟩, c.l, c.a⟩

/-- Modelled from the spec: `RGB::greyscale` operates in the HSL space and
converts back (§4.1). -/
def RGB.greyscale (c : RGB) : RGB := c.to_hsl.greyscale.to_rgb

/-- Modelled from the spec: `RGBA::greyscale` operates in the HSLA space and
converts back (§4.1). -/
def RGBA.greyscale (c : RGBA) : RGBA := c.to_hsla.greyscale.to_rgba

/-- Modelled from the spec: `HSL::spin` adds the amount to the hue with
wraparound (§4.1; the `spin` doctest in `lib.rs`). -/
def HSL.spin (c : HSL) (amount : Angle) : HSL := ⟨c.h.add amount, c.s, c.l⟩

/-- Modelled from the spec: `HSLA::spin` preserves the alpha channel. -/
def HSLA.spin (c : HSLA) (amount : Angle) : HSLA := ⟨c.h.add amount, c.s, c.l, c.a⟩

/-- A color of any of the four representations, as can be passed for the
`other` argument of `Color::mix`. -/
inductive AnyColor where
  | ofRGB (c : RGB)
  | ofRGBA (c : RGBA)
  | ofHSL (c : HSL)
  | ofHSLA (c : HSLA)
deriving DecidableEq, Repr

/-- The RGBA equivalent of an arbitrary color. -/
def AnyColor.to_rgba : AnyColor → RGBA
  | .ofRGB c => c.to_rgba
  | .ofRGBA c => c.to_rgba
  | .ofHSL c => c.to_rgba
  | .ofHSLA c => c.to_rgba

/-- The HSLA equivalent of an arbitrary color. -/
def AnyColor.to_hsla : AnyColor → HSLA
  | .ofRGB c => c.to_hsla
  | .ofRGBA c => c.to_hsla
  | .ofHSL c => c.to_hsla
  | .ofHSLA c => c.to_hsla

/-- The fraction-in-`[0,1]` view of a ratio, as `Color::mix` uses for the
weight and the alpha channels. -/
def mixFraction (r : Ratio8) : ℚ := (r.raw.val : ℚ) / 255

/-- The combined weight of `Color::mix` (§4.1): with `w = 2p - 1` and `d` the
alpha difference, `w1 = ((w*d == -1) ? w : (w + d)/(1 + w*d) + 1) / 2`. -/
def mixW1 (p d : ℚ) : ℚ :=
  ((if (2 * p - 1) * d = -1 then 2 * p - 1
    else ((2 * p - 1) + d) / (1 + (2 * p - 1) * d)) + 1) / 2

/-- One output channel of `Color::mix`: the two input channels blended by
`w1` and `w2 = 1 - w1` and rounded to the nearest byte. -/
def mixChannel (w1 : ℚ) (x y : Ratio8) : Ratio8 :=
  ⟨byteClamp (roundHalfAway ((x.raw.val : ℚ) * w1 + (y.raw.val : ℚ) * (1 - w1)))⟩

/-- Modelled from the spec: the core of `Color::mix` (§4.1) — both operands
already converted to RGBA.  With `p` the weight as a fraction, the channels
are blended by `w1`/`w2 = 1 - w1` and the output alpha is
`alpha(self)*p + alpha(other)*(1-p)`, scaled back to a byte. -/
def mixRGBA (c1 c2 : RGBA) (weight : Ratio8) : RGBA :=
  ⟨mixChannel (mixW1 (mixFraction weight) (mixFraction c1.a - mixFraction c2.a)) c1.r c2.r,
   mixChannel (mixW1 (mixFraction weight) (mixFraction c1.a - mixFraction c2.a)) c1.g c2.g,
   mixChannel (mixW1 (mixFraction weight) (mixFraction c1.a - mixFraction c2.a)) c1.b c2.b,
   ⟨byteClamp (roundHalfAway
      (255 * (mixFraction c1.a * mixFraction weight +
              mixFraction c2.a * (1 - mixFraction weight))))⟩⟩

/-- Modelled from the spec: `RGB::mix` blends into the alpha sibling RGBA
(§4.1). -/
def RGB.mix (c : RGB) (o : AnyColor) (weight : Ratio8) : RGBA :=
  mixRGBA c.to_rgba o.to_rgba weight

/-- Modelled from the spec: `RGBA::mix` (§4.1). -/
def RGBA.mix (c : RGBA) (o : AnyColor) (weight : Ratio8) : RGBA :=
  mixRGBA c.to_rgba o.to_rgba weight

/-- Modelled from the spec: `HSL::mix` blends in RGBA space and converts the
result to the alpha sibling HSLA (§4.1). -/
def HSL.mix (c : HSL) (o : AnyColor) (weight : Ratio8) : HSLA :=
  (mixRGBA c.to_rgba o.to_rgba weight).to_hsla

/-- Modelled from the spec: `HSLA::mix` (§4.1). -/
def HSLA.mix (c : HSLA) (o : AnyColor) (weight : Ratio8) : HSLA :=
  (mixRGBA c.to_rgba o.to_rgba weight).to_hsla

/-- The total number of UTF-8 bytes of a string, modelled as a list of
characters — Rust's `str::len`. -/
def utf8ByteLen (s : List Char) : ℕ := (s.map Char.utf8Size).sum

/-- Drop exactly `n` UTF-8 bytes from the front of a string; `none` when `n`
overruns the string or falls inside a multi-byte character (where Rust's byte
slicing panics). -/
def dropBytes : List Char → ℕ → Option (List Char)
  | s, 0 => some s
  | [], _ + 1 => none
  | c :: cs, n + 1 =>
    if c.utf8Size ≤ n + 1 then dropBytes cs (n + 1 - c.utf8Size) else none

/-- Take exactly `n` UTF-8 bytes from the front of a string; `none` when `n`
overruns the string or falls inside a multi-byte character. -/
def takeBytes : List Char → ℕ → Option (List Char)
  | _, 0 => some []
  | [], _ + 1 => none
  | c :: cs, n + 1 =>
    if c.utf8Size ≤ n + 1 then (takeBytes cs (n + 1 - c.utf8Size)).map (c :: ·) else none

/-- Rust's byte-indexed string slice `&v[i..i+n]`: `none` models the panic on
an out-of-range index or an index that is not a character boundary. -/
def byteSlice (v : List Char) (i n : ℕ) : Option (List Char) :=
  (dropBytes v i).bind (takeBytes · n)

/-- The value of a single hexadecimal digit character, in either case —
Rust's `char::to_digit(16)`. -/
def hexDigitVal (c : Char) : Option ℕ :=
  if '0' ≤ c ∧ c ≤ '9' then some (c.toNat - '0'.toNat)
  else if 'a' ≤ c ∧ c ≤ 'f' then some (c.toNat - 'a'.toNat + 10)
  else if 'A' ≤ c ∧ c ≤ 'F' then some (c.toNat - 'A'.toNat + 10)
  else none

/-- Accumulate hexadecimal digits into a value, failing on a non-digit or on
overflow past 255 — the digit loop of `u8::from_str_radix(s, 16)`. -/
def parseHexDigits (s : List Char) : Option ℕ :=
  s.foldl
    (fun acc c =>
      acc.bind fun n =>
        (hexDigitVal c).bind fun d =>
          if n * 16 + d ≤ 255 then some (n * 16 + d) else none)
    (some 0)

/-- Rust's `u8::from_str_radix(s, 16)`: an optional leading `+` sign (a
leading `-` is rejected for an unsigned type), then one or more hex digits,
failing on overflow. -/
def fromStrRadix16U8 (s : List Char) : Option (Fin 256) :=
  let digits : Option (List Char) :=
    match s with
    | '+' :: rest => some rest
    | '-' :: _ => none
    | other => some other
  match digits with
  | none => none
  | some ds =>
    if ds = [] then none
    else
      match parseHexDigits ds with
      | none => none
      | some n => if h : n ≤ 255 then some ⟨n, by omega⟩ else none

/-- The outcome of running a serde visitor on a string: a decoded value, a
structured decode error, or a Rust panic (raised by byte-slicing a string off
a character boundary). -/
inductive DecodeResult (α : Type) where
  | ok (v : α)
  | err
  | panic
deriving DecidableEq, Repr

/-- Map a function over a successful decode, as the `Deserialize` impls for
HSL and HSLA do with `.map(|c| c.to_hsl())`. -/
def DecodeResult.map {α β : Type} (f : α → β) : DecodeResult α → DecodeResult β
  | .ok v => .ok (f v)
  | .err => .err
  | .panic => .panic

/-- Parse `k` successive 2-byte groups starting at byte offset `i`, as the
visitors' `(1..v.len()).step_by(2).map(|i| u8::from_str_radix(&v[i..i+2], 16))
.collect::<Result<Vec<u8>, _>>()` does: the slice of each group is taken
first (panicking off a character boundary), then parsed, short-circuiting on
the first parse error. -/
def parseGroupsFrom (v : List Char) (i : ℕ) : ℕ → DecodeResult (List (Fin 256))
  | 0 => .ok []
  | k + 1 =>
    match byteSlice v i 2 with
    | none => .panic
    | some s =>
      match fromStrRadix16U8 s with
      | none => .err
      | some n =>
        match parseGroupsFrom v (i + 2) k with
        | .ok ns => .ok (n :: ns)
        | .err => .err
        | .panic => .panic

/-- `RgbVisitor::visit_str` from `integrations/serde.rs`: reject a byte
length other than 7, require a leading `#`, then parse the three 2-byte
groups.  The final `values.get_unchecked(0..=2)` is in bounds because a
successful collect yields exactly three bytes (see the safety theorem); the
unreachable arm is mapped to an error. -/
def rgbVisitStr (v : List Char) : DecodeResult RGB :=
  if utf8ByteLen v ≠ 7 then .err
  else if v.head? = some '#' then
    match parseGroupsFrom v 1 3 with
    | .ok [n1, n2, n3] => .ok (rgb n1 n2 n3)
    | .ok _ => .err
    | .err => .err
    | .panic => .panic
  else .err

/-- `RgbaVisitor::visit_str` from `integrations/serde.rs`: byte length 9,
leading `#`, four 2-byte groups; the fourth byte is divided by 255 and fed to
the `rgba` constructor as the alpha fraction. -/
def rgbaVisitStr (v : List Char) : DecodeResult RGBA :=
  if utf8ByteLen v ≠ 9 then .err
  else if v.head? = some '#' then
    match parseGroupsFrom v 1 4 with
    | .ok [n1, n2, n3, n4] => .ok (rgba n1 n2 n3 ((n4.val : ℚ) / 255))
    | .ok _ => .err
    | .err => .err
    | .panic => .panic
  else .err

/-- `Deserialize for RGB` decodes the hex string with `RgbVisitor`. -/
def deserializeRGB (v : List Char) : DecodeResult RGB := rgbVisitStr v

/-- `Deserialize for HSL` decodes with `RgbVisitor` and converts via
`to_hsl`. -/
def deserializeHSL (v : List Char) : DecodeResult HSL :=
  (rgbVisitStr v).map RGB.to_hsl

/-- `Deserialize for RGBA` decodes the hex string with `RgbaVisitor`. -/
def deserializeRGBA (v : List Char) : DecodeResult RGBA := rgbaVisitStr v

/-- `Deserialize for HSLA` decodes with `RgbaVisitor` and converts via
`to_hsla`. -/
def deserializeHSLA (v : List Char) : DecodeResult HSLA :=
  (rgbaVisitStr v).map RGBA.to_hsla

/-- The lowercase hexadecimal digit character for a value below 16. -/
def hexChar (n : ℕ) : Char :=
  if n < 10 then Char.ofNat ('0'.toNat + n) else Char.ofNat ('a'.toNat + n - 10)

/-- The two lowercase hex digits of a byte. -/
def hexByte (b : Fin 256) : List Char := [hexChar (b.val / 16), hexChar (b.val % 16)]

/-- Modelled from the spec: `RGB::to_hex` produces lowercase `#rrggbb`
(§4.1, §6; the implementation in `rgb.rs` is not under `src/`).  `Serialize`
for each representation emits exactly this string. -/
def RGB.to_hex (c : RGB) : List Char :=
  '#' :: (hexByte c.r.raw ++ hexByte c.g.raw ++ hexByte c.b.raw)

/-- Modelled from the spec: `RGBA::to_hex` produces lowercase `#rrggbbaa`
with the alpha byte appended (§4.1, §6). -/
def RGBA.to_hex (c : RGBA) : List Char :=
  '#' :: (hexByte c.r.raw ++ hexByte c.g.raw ++ hexByte c.b.raw ++ hexByte c.a.raw)

/-! ### Helper lemmas -/

lemma roundHalfAway_eval (q : ℚ) (z : ℤ) (h0 : 0 ≤ q)
    (h1 : (z : ℚ) - 1 / 2 ≤ q) (h2 : q < (z : ℚ) + 1 / 2) :
    roundHalfAway q = z := by
  unfold roundHalfAway
  rw [if_pos h0, Int.floor_eq_iff]
  constructor
  · linarith
  · linarith

lemma roundHalfAway_natCast (n : ℕ) : roundHalfAway (n : ℚ) = n :=
  roundHalfAway_eval _ _ (by positivity) (by norm_num) (by norm_num)

lemma byteClamp_natCast (b : Fin 256) : byteClamp (b.val : ℤ) = b := by
  have hb := b.isLt
  unfold byteClamp
  rw [dif_neg (by omega), dif_pos (by omega)]
  apply Fin.ext
  simp

lemma percent_100 : percent 100 = ⟨255⟩ := by decide

lemma percent_0 : percent 0 = ⟨0⟩ := by decide

lemma subClamp_100 (s : Ratio8) : s.subClamp (percent 100) = ⟨0⟩ := by
  rw [percent_100]
  unfold Ratio8.subClamp
  have := s.raw.isLt
  congr 1
  apply Fin.ext
  show s.raw.val - (255 : Fin 256).val = (0 : Fin 256).val
  omega

/-! ### Claims -/

lemma mixFraction_255 : mixFraction ⟨255⟩ = 1 := by
  unfold mixFraction
  rw [show ((255 : Fin 256) : ℕ) = 255 from rfl]
  norm_num

lemma mixFraction_0 : mixFraction ⟨0⟩ = 0 := by
  unfold mixFraction
  rw [show ((0 : Fin 256) : ℕ) = 0 from rfl]
  norm_num

lemma mixW1_one (d : ℚ) : mixW1 1 d = 1 := by
  unfold mixW1
  by_cases h : (2 * (1 : ℚ) - 1) * d = -1
  · rw [if_pos h]
    norm_num
  · rw [if_neg h]
    have hne : (1 : ℚ) + (2 * 1 - 1) * d ≠ 0 := by
      intro h0
      apply h
      linarith
    have : ((2 * (1 : ℚ) - 1) + d) / (1 + (2 * 1 - 1) * d) = 1 := by
      rw [div_eq_iff hne]
      ring
    rw [this]
    norm_num

lemma mixW1_zero (d : ℚ) : mixW1 0 d = 0 := by
  unfold mixW1
  by_cases h : (2 * (0 : ℚ) - 1) * d = -1
  · rw [if_pos h]
    norm_num
  · rw [if_neg h]
    have hne : (1 : ℚ) + (2 * 0 - 1) * d ≠ 0 := by
      intro h0
      apply h
      linarith
    have : ((2 * (0 : ℚ) - 1) + d) / (1 + (2 * 0 - 1) * d) = -1 := by
      rw [div_eq_iff hne]
      ring
    rw [this]
    norm_num

lemma mixChannel_one (x y : Ratio8) : mixChannel 1 x y = x := by
  unfold mixChannel
  rw [show ((x.raw.val : ℚ) * 1 + (y.raw.val : ℚ) * (1 - 1)) = (x.raw.val : ℚ) by ring]
  rw [roundHalfAway_natCast, byteClamp_natCast]

lemma mixChannel_zero (x y : Ratio8) : mixChannel 0 x y = y := by
  unfold mixChannel
  rw [show ((x.raw.val : ℚ) * 0 + (y.raw.val : ℚ) * (1 - 0)) = (y.raw.val : ℚ) by ring]
  rw [roundHalfAway_natCast, byteClamp_natCast]

lemma mixRGBA_weight_255 (c1 c2 : RGBA) : mixRGBA c1 c2 ⟨255⟩ = c1 := by
  unfold mixRGBA
  rw [mixFraction_255, mixW1_one, mixChannel_one, mixChannel_one, mixChannel_one]
  have ha : 255 * (mixFraction c1.a * 1 + mixFraction c2.a * (1 - 1)) =
      (c1.a.raw.val : ℚ) := by
    unfold mixFraction
    field_simp
  rw [ha, roundHalfAway_natCast, byteClamp_natCast]

lemma mixRGBA_weight_0 (c1 c2 : RGBA) : mixRGBA c1 c2 ⟨0⟩ = c2 := by
  unfold mixRGBA
  rw [mixFraction_0, mixW1_zero, mixChannel_zero, mixChannel_zero, mixChannel_zero]
  have ha : 255 * (mixFraction c1.a * 0 + mixFraction c2.a * (1 - 0)) =
      (c2.a.raw.val : ℚ) := by
    unfold mixFraction
    field_simp
  rw [ha, roundHalfAway_natCast, byteClamp_natCast]

/-- C1: conversion round-trips and identities — `to_rgb` is the identity on
RGB and recovers the original after `to_rgba`; likewise for the HSL family;
promoting a non-alpha value sets alpha fully opaque; demoting an
alpha-carrying value discards alpha and leaves the other channels
unchanged (cross-family conversions ignore the alpha as well). -/
theorem claim1_conversion_round_trips :
    (∀ c : RGB, c.to_rgb = c ∧ c.to_rgba.to_rgb = c ∧
      c.to_rgba = { r := c.r, g := c.g, b := c.b, a := Ratio8.opaque }) ∧
    (∀ c : HSL, c.to_hsl = c ∧ c.to_hsla.to_hsl = c ∧
      c.to_hsla = { h := c.h, s := c.s, l := c.l, a := Ratio8.opaque }) ∧
    (∀ c : RGBA, c.to_rgb = { r := c.r, g := c.g, b := c.b } ∧
      c.to_hsl = c.to_rgb.to_hsl ∧ c.to_hsla.to_hsl = c.to_hsl) ∧
    (∀ c : HSLA, c.to_hsl = { h := c.h, s := c.s, l := c.l } ∧
      c.to_rgb = c.to_hsl.to_rgb ∧ c.to_rgba.to_rgb = c.to_rgb) :=
  ⟨fun _ => ⟨rfl, rfl, rfl⟩, fun _ => ⟨rfl, rfl, rfl⟩,
   fun _ => ⟨rfl, rfl, rfl⟩, fun _ => ⟨rfl, rfl, rfl⟩⟩

/-- C2: achromatic RGB → HSL conversion — when all three channels are equal
the conversion takes the achromatic branch (before any division is reached)
and yields hue 0°, saturation 0% and lightness `round(100*r/255)`%. -/
theorem claim2_achromatic_to_hsl (c : RGB) (h1 : c.r = c.g) (h2 : c.g = c.b) :
    c.to_hsl = { h := Angle.new 0, s := Ratio8.from_percentage 0,
                 l := Ratio8.from_percentage (roundNatDiv (100 * c.r.raw.val) 255) } := by
  unfold RGB.to_hsl rgb_to_hsl
  rw [if_pos ⟨h1, h2⟩]

/-- Witness for C2 at the grey test vector `rgb(230, 230, 230)`, whose
lightness `round(100*230/255) = 90` matches the repository's own
`conversion_test!(grey, ...)`. -/
theorem claim2_achromatic_to_hsl_witness :
    (rgb 230 230 230).to_hsl = hsl 0 0 90 := by
  have h := claim2_achromatic_to_hsl (rgb 230 230 230) rfl rfl
  rw [h]; decide

/-- C4: `greyscale()` coincides with `desaturate(100%)` on each of the four
representations: subtracting a full 255 raw saturation clamps to exactly
zero, which is what `greyscale` sets directly. -/
theorem claim4_greyscale_is_desaturate_100 :
    (∀ c : RGB, c.greyscale = c.desaturate (percent 100)) ∧
    (∀ c : RGBA, c.greyscale = c.desaturate (percent 100)) ∧
    (∀ c : HSL, c.greyscale = c.desaturate (percent 100)) ∧
    (∀ c : HSLA, c.greyscale = c.desaturate (percent 100)) := by
  have hhsl : ∀ c : HSL, c.greyscale = c.desaturate (percent 100) := by
    intro c
    unfold HSL.greyscale HSL.desaturate
    rw [subClamp_100]
  have hhsla : ∀ c : HSLA, c.greyscale = c.desaturate (percent 100) := by
    intro c
    unfold HSLA.greyscale HSLA.desaturate
    rw [subClamp_100]
  refine ⟨fun c => ?_, fun c => ?_, hhsl, hhsla⟩
  · unfold RGB.greyscale RGB.desaturate
    rw [hhsl]
  · unfold RGBA.greyscale RGBA.desaturate
    rw [hhsla]

/-- C5: the Angle normalization invariant — construction from any integer
and angle arithmetic always land in `[0, 360)` (the degrees are a natural
number, hence nonnegative); `Angle(0)` and `Angle(360)` coincide; spinning
an HSL color by 360° is the identity, and spinning wraps modulo 360
(hue 10 spun by −30° gives hue 340). -/
theorem claim5_angle_normalization :
    (∀ d : ℤ, (Angle.new d).degrees < 360) ∧
    (∀ a b : Angle, (a.add b).degrees < 360) ∧
    (Angle.new 0 = Angle.new 360) ∧
    (∀ c : HSL, c.h.degrees < 360 → c.spin (deg 360) = c) ∧
    ((hsl 10 90 50).spin (deg (-30)) = hsl 340 90 50) := by
  have hnew : ∀ d : ℤ, (Angle.new d).degrees < 360 := by
    intro d
    show (d % 360).toNat < 360
    have h1 := Int.emod_nonneg d (by norm_num : (360 : ℤ) ≠ 0)
    have h2 := Int.emod_lt_of_pos d (by norm_num : (0 : ℤ) < 360)
    omega
  have hadd0 : ∀ a : Angle, a.degrees < 360 → a.add ⟨0⟩ = a := by
    intro a ha
    unfold Angle.add Angle.new
    congr 1
    show (((a.degrees : ℤ) + ((0 : ℕ) : ℤ)) % 360).toNat = a.degrees
    omega
  refine ⟨hnew, fun a b => hnew _, by decide, ?_, by decide⟩
  intro c hc
  have h360 : deg 360 = ⟨0⟩ := by decide
  show HSL.mk (c.h.add (deg 360)) c.s c.l = c
  rw [h360, hadd0 c.h hc]

/-- Witness for C5: spinning the test color `hsl(10, 90, 50)` by 360° is the
identity. -/
theorem claim5_angle_normalization_witness :
    (hsl 10 90 50).spin (deg 360) = hsl 10 90 50 :=
  claim5_angle_normalization.2.2.2.1 (hsl 10 90 50) (by decide)

/-- C3 (amended): mix endpoint exactness — for every color and any `other`,
`mix(other, 100%)` equals exactly `self.to_rgba()` converted into the alpha
sibling of `self`'s family, and `mix(other, 0%)` equals exactly
`other.to_rgba()` converted likewise.  For the RGB family this is exactly
`self.to_rgba()` (resp. `other.to_rgba()`); for the HSL family it is that
RGBA value converted to HSLA, which can differ from `self.to_hsla()` by
rounding (see the counterexample). -/
theorem claim3_mix_endpoints :
    (∀ (c : RGB) (o : AnyColor),
      c.mix o (percent 100) = c.to_rgba ∧ c.mix o (percent 0) = o.to_rgba) ∧
    (∀ (c : RGBA) (o : AnyColor),
      c.mix o (percent 100) = c.to_rgba ∧ c.mix o (percent 0) = o.to_rgba) ∧
    (∀ (c : HSL) (o : AnyColor),
      c.mix o (percent 100) = c.to_rgba.to_hsla ∧
      c.mix o (percent 0) = o.to_rgba.to_hsla) ∧
    (∀ (c : HSLA) (o : AnyColor),
      c.mix o (percent 100) = c.to_rgba.to_hsla ∧
      c.mix o (percent 0) = o.to_rgba.to_hsla) := by
  refine ⟨fun c o => ⟨?_, ?_⟩, fun c o => ⟨?_, ?_⟩, fun c o => ⟨?_, ?_⟩, fun c o => ⟨?_, ?_⟩⟩
  · rw [RGB.mix, percent_100, mixRGBA_weight_255]
  · rw [RGB.mix, percent_0, mixRGBA_weight_0]
  · rw [RGBA.mix, percent_100, mixRGBA_weight_255, RGBA.to_rgba]
  · rw [RGBA.mix, percent_0, mixRGBA_weight_0]
  · rw [HSL.mix, percent_100, mixRGBA_weight_255]
  · rw [HSL.mix, percent_0, mixRGBA_weight_0]
  · rw [HSLA.mix, percent_100, mixRGBA_weight_255]
  · rw [HSLA.mix, percent_0, mixRGBA_weight_0]

lemma rgb_to_hsl_243_166_13 : rgb_to_hsl (rgb 243 166 13) = hsl 40 91 50 := by
  have h : rgb 243 166 13 =
      RGB.mk ⟨⟨243, by norm_num⟩⟩ ⟨⟨166, by norm_num⟩⟩ ⟨⟨13, by norm_num⟩⟩ := by decide
  have hg : hsl 40 91 50 = HSL.mk ⟨40⟩ ⟨⟨232, by norm_num⟩⟩ ⟨⟨128, by norm_num⟩⟩ := by decide
  rw [h, hg]
  simp only [rgb_to_hsl]
  norm_num [max_def, min_def]
  refine ⟨?_, ?_, ?_⟩
  · rw [show roundHalfAway ((918 : ℚ) / 23) = 40 from
      roundHalfAway_eval _ _ (by norm_num) (by norm_num) (by norm_num)]
    decide
  · rw [show roundHalfAway ((11500 : ℚ) / 127) = 91 from
      roundHalfAway_eval _ _ (by norm_num) (by norm_num) (by norm_num)]
    decide
  · rw [show roundHalfAway ((2560 : ℚ) / 51) = 50 from
      roundHalfAway_eval _ _ (by norm_num) (by norm_num) (by norm_num)]
    decide

lemma hsl_to_rgb_40_90_50 : hsl_to_rgb (hsl 40 90 50) = rgb 243 166 13 := by
  have h : hsl 40 90 50 = HSL.mk ⟨40⟩ ⟨⟨230, by norm_num⟩⟩ ⟨⟨128, by norm_num⟩⟩ := by decide
  have hg : rgb 243 166 13 =
      RGB.mk ⟨⟨243, by norm_num⟩⟩ ⟨⟨166, by norm_num⟩⟩ ⟨⟨13, by norm_num⟩⟩ := by decide
  rw [h, hg]
  simp only [hsl_to_rgb]
  norm_num
  rw [show |(1 : ℚ) / 255| = 1 / 255 from abs_of_nonneg (by norm_num),
      show |(1 : ℚ) / 3| = 1 / 3 from abs_of_nonneg (by norm_num)]
  refine ⟨?_, ?_, ?_⟩
  · rw [show (255 * ((1 - 1 / 255) * (46 / 51) + (128 / 255 - (1 - 1 / 255) * (46 / 51) / 2)) : ℚ) =
        61850 / 255 by norm_num]
    rw [show roundHalfAway ((61850 : ℚ) / 255) = 243 from
      roundHalfAway_eval _ _ (by norm_num) (by norm_num) (by norm_num)]
    decide
  · rw [show (255 * ((1 - 1 / 255) * (46 / 51) * (1 - 1 / 3) +
          (128 / 255 - (1 - 1 / 255) * (46 / 51) / 2)) : ℚ) = 127130 / 765 by norm_num]
    rw [show roundHalfAway ((127130 : ℚ) / 765) = 166 from
      roundHalfAway_eval _ _ (by norm_num) (by norm_num) (by norm_num)]
    decide
  · rw [show (255 * (128 / 255 - (1 - 1 / 255) * (46 / 51) / 2) : ℚ) = 3430 / 255 by norm_num]
    rw [show roundHalfAway ((3430 : ℚ) / 255) = 13 from
      roundHalfAway_eval _ _ (by norm_num) (by norm_num) (by norm_num)]
    decide

/-- C3 counterexample: the claim's statement that for an HSL-family `self`
the 100% endpoint equals `self.to_hsla()` exactly is false — `hsl(40,90,50)`
goes to `rgb(243,166,13)` and returns with saturation 91% (raw byte 232, not
the original 230), so `mix` at weight 100% differs from `to_hsla()`. -/
theorem claim3_mix_endpoints_counterexample :
    (hsl 40 90 50).mix (AnyColor.ofRGB (rgb 0 0 0)) (percent 100) ≠
      (hsl 40 90 50).to_hsla := by
  simp only [HSL.mix, percent_100, mixRGBA_weight_255]
  show HSLA.mk (rgb_to_hsl (hsl_to_rgb (hsl 40 90 50))).h
      (rgb_to_hsl (hsl_to_rgb (hsl 40 90 50))).s
      (rgb_to_hsl (hsl_to_rgb (hsl 40 90 50))).l Ratio8.opaque ≠
    (hsl 40 90 50).to_hsla
  rw [hsl_to_rgb_40_90_50, rgb_to_hsl_243_166_13]
  decide

/-- C6: Ratio percentage construction — `from_percentage p` stores the byte
`round-half-away(p * 255 / 100)`: the stored byte `q` satisfies
`p*255/100 - 1/2 < q ≤ p*255/100 + 1/2` (scaled by 200 to stay in integers),
so it is the nearest byte with ties rounded up, i.e. away from zero
(93% ↦ 237 and 71% ↦ 181, as the `can_debug` test in `lib.rs` fixes, and
10% ↦ 26 exhibits a tie rounding away from zero); construction from a raw
byte is exact; and `as_percentage ∘ from_percentage` moves a percentage by
at most 1. -/
theorem claim6_ratio_percentage_construction :
    (∀ p : Fin 101,
      200 * (Ratio8.from_percentage p.val).raw.val ≤ 2 * (p.val * 255) + 100 ∧
      2 * (p.val * 255) < 200 * (Ratio8.from_percentage p.val).raw.val + 100) ∧
    (Ratio8.from_percentage 93 = ⟨237⟩ ∧ Ratio8.from_percentage 71 = ⟨181⟩ ∧
      Ratio8.from_percentage 10 = ⟨26⟩) ∧
    (∀ b : Fin 256, (Ratio8.from_u8 b).raw = b ∧ (Ratio8.from_u8 b).as_u8 = b) ∧
    (∀ p : Fin 101,
      (Ratio8.from_percentage p.val).as_percentage ≤ p.val + 1 ∧
      p.val ≤ (Ratio8.from_percentage p.val).as_percentage + 1) := by
  refine ⟨by decide, by decide, fun b => ⟨rfl, rfl⟩, by decide⟩

/-- The uppercase hexadecimal digit character for a value below 16. -/
def hexCharUpper (n : ℕ) : Char :=
  if n < 10 then Char.ofNat ('0'.toNat + n) else Char.ofNat ('A'.toNat + n - 10)

/-- A hexadecimal digit character in a chosen case. -/
def hexCharMixed (up : Bool) (n : ℕ) : Char :=
  if up then hexCharUpper n else hexChar n

lemma hexChar_size (n : ℕ) (h : n < 16) : (hexChar n).utf8Size = 1 := by
  interval_cases n <;> decide

lemma hexCharMixed_size (u : Bool) (n : ℕ) (h : n < 16) : (hexCharMixed u n).utf8Size = 1 := by
  cases u <;> interval_cases n <;> decide

lemma parse_hexByte : ∀ b : Fin 256, fromStrRadix16U8 (hexByte b) = some b := by decide

lemma parse_hexByteMixed : ∀ (b : Fin 256) (u1 u2 : Bool),
    fromStrRadix16U8 [hexCharMixed u1 (b.val / 16), hexCharMixed u2 (b.val % 16)] =
      some b := by decide

lemma from_f32_byte (b : Fin 256) : Ratio8.from_f32 ((b.val : ℚ) / 255) = ⟨b⟩ := by
  unfold Ratio8.from_f32
  rw [show ((b.val : ℚ) / 255) * 255 = (b.val : ℚ) by field_simp]
  rw [roundHalfAway_natCast, byteClamp_natCast]

lemma rgbVisitStr_chars (c1 c2 c3 c4 c5 c6 : Char)
    (h1 : c1.utf8Size = 1) (h2 : c2.utf8Size = 1) (h3 : c3.utf8Size = 1)
    (h4 : c4.utf8Size = 1) (h5 : c5.utf8Size = 1) (h6 : c6.utf8Size = 1)
    (d1 d2 d3 : Fin 256)
    (p1 : fromStrRadix16U8 [c1, c2] = some d1)
    (p2 : fromStrRadix16U8 [c3, c4] = some d2)
    (p3 : fromStrRadix16U8 [c5, c6] = some d3) :
    rgbVisitStr ['#', c1, c2, c3, c4, c5, c6] = .ok (rgb d1 d2 d3) := by
  have h0 : ('#').utf8Size = 1 := by decide
  simp [rgbVisitStr, utf8ByteLen, parseGroupsFrom, byteSlice, dropBytes, takeBytes,
    h0, h1, h2, h3, h4, h5, h6, p1, p2, p3]

lemma rgbaVisitStr_chars (c1 c2 c3 c4 c5 c6 c7 c8 : Char)
    (h1 : c1.utf8Size = 1) (h2 : c2.utf8Size = 1) (h3 : c3.utf8Size = 1)
    (h4 : c4.utf8Size = 1) (h5 : c5.utf8Size = 1) (h6 : c6.utf8Size = 1)
    (h7 : c7.utf8Size = 1) (h8 : c8.utf8Size = 1)
    (d1 d2 d3 d4 : Fin 256)
    (p1 : fromStrRadix16U8 [c1, c2] = some d1)
    (p2 : fromStrRadix16U8 [c3, c4] = some d2)
    (p3 : fromStrRadix16U8 [c5, c6] = some d3)
    (p4 : fromStrRadix16U8 [c7, c8] = some d4) :
    rgbaVisitStr ['#', c1, c2, c3, c4, c5, c6, c7, c8] =
      .ok (rgba d1 d2 d3 ((d4.val : ℚ) / 255)) := by
  have h0 : ('#').utf8Size = 1 := by decide
  simp [rgbaVisitStr, utf8ByteLen, parseGroupsFrom, byteSlice, dropBytes, takeBytes,
    h0, h1, h2, h3, h4, h5, h6, h7, h8, p1, p2, p3, p4]

lemma rgbVisitStr_to_hex (c : RGB) : rgbVisitStr c.to_hex = .ok c := by
  obtain ⟨⟨r⟩, ⟨g⟩, ⟨b⟩⟩ := c
  have hr := r.isLt
  have hg := g.isLt
  have hb := b.isLt
  exact rgbVisitStr_chars _ _ _ _ _ _
    (hexChar_size _ (by omega)) (hexChar_size _ (by omega))
    (hexChar_size _ (by omega)) (hexChar_size _ (by omega))
    (hexChar_size _ (by omega)) (hexChar_size _ (by omega))
    r g b (parse_hexByte r) (parse_hexByte g) (parse_hexByte b)

lemma rgbaVisitStr_to_hex (c : RGBA) : rgbaVisitStr c.to_hex = .ok c := by
  obtain ⟨⟨r⟩, ⟨g⟩, ⟨b⟩, ⟨a⟩⟩ := c
  have hr := r.isLt
  have hg := g.isLt
  have hb := b.isLt
  have hal := a.isLt
  have h := rgbaVisitStr_chars _ _ _ _ _ _ _ _
    (hexChar_size _ (by omega)) (hexChar_size _ (by omega))
    (hexChar_size _ (by omega)) (hexChar_size _ (by omega))
    (hexChar_size _ (by omega)) (hexChar_size _ (by omega))
    (hexChar_size _ (by omega)) (hexChar_size _ (by omega))
    r g b a (parse_hexByte r) (parse_hexByte g) (parse_hexByte b) (parse_hexByte a)
  have h2 : rgba r g b ((a.val : ℚ) / 255) = RGBA.mk ⟨r⟩ ⟨g⟩ ⟨b⟩ ⟨a⟩ := by
    unfold rgba
    rw [from_f32_byte]
  show rgbaVisitStr ['#',
      hexChar (r.val / 16), hexChar (r.val % 16), hexChar (g.val / 16), hexChar (g.val % 16),
      hexChar (b.val / 16), hexChar (b.val % 16), hexChar (a.val / 16), hexChar (a.val % 16)] =
    DecodeResult.ok (RGBA.mk ⟨r⟩ ⟨g⟩ ⟨b⟩ ⟨a⟩)
  rw [h, h2]

/-- C9: serialization round-trip — for every RGB value, decoding the hex
string produced by `to_hex` (which is what `Serialize` emits) yields exactly
the original value; for every RGBA value the alpha byte is decoded as `b/255`
and re-encoded to the same byte, so the round-trip is the identity there
too. -/
theorem claim9_serialize_round_trip :
    (∀ c : RGB, deserializeRGB c.to_hex = .ok c) ∧
    (∀ c : RGBA, deserializeRGBA c.to_hex = .ok c) :=
  ⟨fun c => rgbVisitStr_to_hex c, fun c => rgbaVisitStr_to_hex c⟩

/-- C10: case-insensitive hex parsing — for any channel bytes and any choice
of upper/lower case for each hex digit, decoding the '#'-prefixed string
formed from those digits yields the same color value as decoding the
all-lowercase form `to_hex` produces (every 7- or 9-character string of `#`
followed by hex digits is of this shape). -/
theorem claim10_case_insensitive_parsing :
    (∀ (b1 b2 b3 : Fin 256) (u1 u2 u3 u4 u5 u6 : Bool),
      rgbVisitStr ['#',
        hexCharMixed u1 (b1.val / 16), hexCharMixed u2 (b1.val % 16),
        hexCharMixed u3 (b2.val / 16), hexCharMixed u4 (b2.val % 16),
        hexCharMixed u5 (b3.val / 16), hexCharMixed u6 (b3.val % 16)] =
      rgbVisitStr (rgb b1 b2 b3).to_hex) ∧
    (∀ (b1 b2 b3 b4 : Fin 256) (u1 u2 u3 u4 u5 u6 u7 u8 : Bool),
      rgbaVisitStr ['#',
        hexCharMixed u1 (b1.val / 16), hexCharMixed u2 (b1.val % 16),
        hexCharMixed u3 (b2.val / 16), hexCharMixed u4 (b2.val % 16),
        hexCharMixed u5 (b3.val / 16), hexCharMixed u6 (b3.val % 16),
        hexCharMixed u7 (b4.val / 16), hexCharMixed u8 (b4.val % 16)] =
      rgbaVisitStr (rgba b1 b2 b3 ((b4.val : ℚ) / 255)).to_hex) := by
  constructor
  · intro b1 b2 b3 u1 u2 u3 u4 u5 u6
    have e1 := rgbVisitStr_chars _ _ _ _ _ _
      (hexCharMixed_size _ _ (by have := b1.isLt; omega))
      (hexCharMixed_size _ _ (by have := b1.isLt; omega))
      (hexCharMixed_size _ _ (by have := b2.isLt; omega))
      (hexCharMixed_size _ _ (by have := b2.isLt; omega))
      (hexCharMixed_size _ _ (by have := b3.isLt; omega))
      (hexCharMixed_size _ _ (by have := b3.isLt; omega))
      b1 b2 b3 (parse_hexByteMixed b1 u1 u2) (parse_hexByteMixed b2 u3 u4)
      (parse_hexByteMixed b3 u5 u6)
    rw [e1, rgbVisitStr_to_hex]
  · intro b1 b2 b3 b4 u1 u2 u3 u4 u5 u6 u7 u8
    have e1 := rgbaVisitStr_chars _ _ _ _ _ _ _ _
      (hexCharMixed_size _ _ (by have := b1.isLt; omega))
      (hexCharMixed_size _ _ (by have := b1.isLt; omega))
      (hexCharMixed_size _ _ (by have := b2.isLt; omega))
      (hexCharMixed_size _ _ (by have := b2.isLt; omega))
      (hexCharMixed_size _ _ (by have := b3.isLt; omega))
      (hexCharMixed_size _ _ (by have := b3.isLt; omega))
      (hexCharMixed_size _ _ (by have := b4.isLt; omega))
      (hexCharMixed_size _ _ (by have := b4.isLt; omega))
      b1 b2 b3 b4 (parse_hexByteMixed b1 u1 u2) (parse_hexByteMixed b2 u3 u4)
      (parse_hexByteMixed b3 u5 u6) (parse_hexByteMixed b4 u7 u8)
    rw [e1, rgbaVisitStr_to_hex]

lemma utf8ByteLen_ascii (v : List Char) (hA : ∀ c ∈ v, c.utf8Size = 1) :
    utf8ByteLen v = v.length := by
  induction v with
  | nil => rfl
  | cons c cs ih =>
    have hc : c.utf8Size = 1 := hA c (by simp)
    have ihs : utf8ByteLen cs = cs.length := ih fun x hx => hA x (by simp [hx])
    simp [utf8ByteLen, hc] at ihs ⊢
    omega

lemma dropBytes_ascii (v : List Char) (hA : ∀ c ∈ v, c.utf8Size = 1) :
    ∀ i ≤ v.length, dropBytes v i = some (v.drop i) := by
  induction v with
  | nil =>
    intro i hi
    have h0 : i = 0 := by simpa using hi
    subst h0
    rfl
  | cons c cs ih =>
    intro i hi
    match i with
    | 0 => rfl
    | n + 1 =>
      have hc : c.utf8Size = 1 := hA c (by simp)
      have hn : n ≤ cs.length := by simpa using hi
      simp only [dropBytes, hc, List.drop_succ_cons]
      rw [if_pos (by omega), show n + 1 - 1 = n from rfl]
      exact ih (fun x hx => hA x (by simp [hx])) n hn

lemma takeBytes_ascii (v : List Char) (hA : ∀ c ∈ v, c.utf8Size = 1) :
    ∀ n ≤ v.length, takeBytes v n = some (v.take n) := by
  induction v with
  | nil =>
    intro n hn
    have h0 : n = 0 := by simpa using hn
    subst h0
    rfl
  | cons c cs ih =>
    intro n hn
    match n with
    | 0 => rfl
    | m + 1 =>
      have hc : c.utf8Size = 1 := hA c (by simp)
      have hm : m ≤ cs.length := by simpa using hn
      simp only [takeBytes, hc, List.take_succ_cons]
      rw [if_pos (by omega), show m + 1 - 1 = m from rfl]
      rw [ih (fun x hx => hA x (by simp [hx])) m hm]
      rfl

lemma byteSlice_ascii (v : List Char) (hA : ∀ c ∈ v, c.utf8Size = 1)
    (i n : ℕ) (hin : i + n ≤ v.length) :
    byteSlice v i n = some ((v.drop i).take n) := by
  unfold byteSlice
  rw [dropBytes_ascii v hA i (by omega)]
  show takeBytes (v.drop i) n = some ((v.drop i).take n)
  apply takeBytes_ascii
  · intro x hx
    exact hA x (List.mem_of_mem_drop hx)
  · rw [List.length_drop]
    omega

lemma parseGroupsFrom_length (v : List Char) :
    ∀ (k i : ℕ) (ns : List (Fin 256)), parseGroupsFrom v i k = .ok ns → ns.length = k := by
  intro k
  induction k with
  | zero =>
    intro i ns h
    simp only [parseGroupsFrom] at h
    cases h
    rfl
  | succ m ih =>
    intro i ns h
    rcases hb : byteSlice v i 2 with _ | s
    · simp only [parseGroupsFrom, hb] at h
      cases h
    rcases hp : fromStrRadix16U8 s with _ | n
    · simp only [parseGroupsFrom, hb, hp] at h
      cases h
    rcases hrec : parseGroupsFrom v (i + 2) m with ns' | _ | _ <;>
      simp only [parseGroupsFrom, hb, hp, hrec] at h <;> cases h
    simp [ih (i + 2) ns' hrec]

lemma parseGroupsFrom_ascii (v : List Char) (hA : ∀ c ∈ v, c.utf8Size = 1) :
    ∀ (k i : ℕ), i + 2 * k ≤ v.length →
      (parseGroupsFrom v i k ≠ .panic) ∧
      ((∃ ns, parseGroupsFrom v i k = .ok ns) ↔
        ∀ j < k, (fromStrRadix16U8 ((v.drop (i + 2 * j)).take 2)).isSome) ∧
      (parseGroupsFrom v i k = .err ↔
        ¬ ∀ j < k, (fromStrRadix16U8 ((v.drop (i + 2 * j)).take 2)).isSome) := by
  intro k
  induction k with
  | zero =>
    intro i _
    refine ⟨by simp [parseGroupsFrom], ?_, ?_⟩
    · simp [parseGroupsFrom]
    · simp [parseGroupsFrom]
  | succ m ih =>
    intro i hik
    have hslice : byteSlice v i 2 = some ((v.drop i).take 2) :=
      byteSlice_ascii v hA i 2 (by omega)
    have hsplit : (∀ j < m + 1, (fromStrRadix16U8 ((v.drop (i + 2 * j)).take 2)).isSome) ↔
        ((fromStrRadix16U8 ((v.drop i).take 2)).isSome ∧
         ∀ j < m, (fromStrRadix16U8 ((v.drop (i + 2 + 2 * j)).take 2)).isSome) := by
      constructor
      · intro h
        refine ⟨by simpa using h 0 (by omega), fun j hj => ?_⟩
        have := h (j + 1) (by omega)
        rw [show i + 2 * (j + 1) = i + 2 + 2 * j by ring] at this
        exact this
      · rintro ⟨h0, h⟩ j hj
        match j with
        | 0 => simpa using h0
        | j + 1 =>
          rw [show i + 2 * (j + 1) = i + 2 + 2 * j by ring]
          exact h j (by omega)
    obtain ⟨ihp, ihok, iherr⟩ := ih (i + 2) (by omega)
    rcases hp : fromStrRadix16U8 ((v.drop i).take 2) with _ | n
    · have hv : parseGroupsFrom v i (m + 1) = .err := by
        simp only [parseGroupsFrom, hslice, hp]
      rw [hv, hsplit]
      simp [hp]
    · rcases hrec : parseGroupsFrom v (i + 2) m with ns | _ | _
      · have hv : parseGroupsFrom v i (m + 1) = .ok (n :: ns) := by
          simp only [parseGroupsFrom, hslice, hp, hrec]
        rw [hv, hsplit]
        simp only [hp, Option.isSome_some, true_and]
        refine ⟨by simp, ?_, ?_⟩
        · constructor
          · intro _
            exact ihok.mp ⟨ns, hrec⟩
          · intro _
            exact ⟨n :: ns, rfl⟩
        · constructor
          · intro h
            exact absurd h (by simp)
          · intro h
            exact absurd (ihok.mp ⟨ns, hrec⟩) h
      · have hv : parseGroupsFrom v i (m + 1) = .err := by
          simp only [parseGroupsFrom, hslice, hp, hrec]
        rw [hv, hsplit]
        simp only [hp, Option.isSome_some, true_and]
        refine ⟨by simp, ?_, ?_⟩
        · constructor
          · rintro ⟨ns, hns⟩
            exact absurd hns (by simp)
          · intro h
            obtain ⟨ns, hns⟩ := ihok.mpr h
            rw [hns] at hrec
            cases hrec
        · constructor
          · intro _
            exact iherr.mp hrec
          · intro _
            trivial
      · exact absurd hrec ihp

/-- The condition that each of the first `k` 2-byte groups after the `#`
parses as a hexadecimal `u8`. -/
def hexGroupsOk (v : List Char) (k : ℕ) : Prop :=
  ∀ j < k, (fromStrRadix16U8 ((v.drop (1 + 2 * j)).take 2)).isSome

instance (v : List Char) (k : ℕ) : Decidable (hexGroupsOk v k) := by
  unfold hexGroupsOk
  infer_instance

lemma rgbVisitStr_cases (v : List Char) (hA : ∀ c ∈ v, c.utf8Size = 1) :
    (rgbVisitStr v = .err ↔
      ¬(v.head? = some '#' ∧ utf8ByteLen v = 7 ∧ hexGroupsOk v 3)) ∧
    rgbVisitStr v ≠ .panic ∧
    ((∃ c, rgbVisitStr v = .ok c) ↔
      (v.head? = some '#' ∧ utf8ByteLen v = 7 ∧ hexGroupsOk v 3)) := by
  by_cases hlen : utf8ByteLen v = 7
  · by_cases hhead : v.head? = some '#'
    · have hlen' : v.length = 7 := by rw [← utf8ByteLen_ascii v hA]; exact hlen
      obtain ⟨hpanic, hok, herr⟩ := parseGroupsFrom_ascii v hA 3 1 (by omega)
      rcases hres : parseGroupsFrom v 1 3 with ns | _ | _
      · have hlen3 : ns.length = 3 := parseGroupsFrom_length v 3 1 ns hres
        rcases ns with _ | ⟨n1, _ | ⟨n2, _ | ⟨n3, _ | ⟨n4, t⟩⟩⟩⟩ <;> simp at hlen3
        have hgroups : hexGroupsOk v 3 := hok.mp ⟨_, hres⟩
        have hv : rgbVisitStr v = .ok (rgb n1 n2 n3) := by
          unfold rgbVisitStr
          rw [if_neg (by simp [hlen]), if_pos hhead, hres]
        refine ⟨?_, ?_, ?_⟩
        · rw [hv]
          simp [hhead, hlen, hgroups]
        · rw [hv]
          simp
        · rw [hv]
          simp [hhead, hlen, hgroups]
      · have hng : ¬ hexGroupsOk v 3 := herr.mp hres
        have hv : rgbVisitStr v = .err := by
          unfold rgbVisitStr
          rw [if_neg (by simp [hlen]), if_pos hhead, hres]
        refine ⟨?_, ?_, ?_⟩
        · rw [hv]
          simp [hng]
        · rw [hv]
          simp
        · rw [hv]
          simp [hng]
      · exact absurd hres hpanic
    · have hv : rgbVisitStr v = .err := by
        unfold rgbVisitStr
        rw [if_neg (by simp [hlen]), if_neg hhead]
      refine ⟨?_, ?_, ?_⟩
      · rw [hv]
        simp [hhead]
      · rw [hv]
        simp
      · rw [hv]
        simp [hhead]
  · have hv : rgbVisitStr v = .err := by
      unfold rgbVisitStr
      rw [if_pos hlen]
    refine ⟨?_, ?_, ?_⟩
    · rw [hv]
      simp [hlen]
    · rw [hv]
      simp
    · rw [hv]
      simp [hlen]

lemma rgbaVisitStr_cases (v : List Char) (hA : ∀ c ∈ v, c.utf8Size = 1) :
    (rgbaVisitStr v = .err ↔
      ¬(v.head? = some '#' ∧ utf8ByteLen v = 9 ∧ hexGroupsOk v 4)) ∧
    rgbaVisitStr v ≠ .panic ∧
    ((∃ c, rgbaVisitStr v = .ok c) ↔
      (v.head? = some '#' ∧ utf8ByteLen v = 9 ∧ hexGroupsOk v 4)) := by
  by_cases hlen : utf8ByteLen v = 9
  · by_cases hhead : v.head? = some '#'
    · have hlen' : v.length = 9 := by rw [← utf8ByteLen_ascii v hA]; exact hlen
      obtain ⟨hpanic, hok, herr⟩ := parseGroupsFrom_ascii v hA 4 1 (by omega)
      rcases hres : parseGroupsFrom v 1 4 with ns | _ | _
      · have hlen4 : ns.length = 4 := parseGroupsFrom_length v 4 1 ns hres
        rcases ns with _ | ⟨n1, _ | ⟨n2, _ | ⟨n3, _ | ⟨n4, _ | ⟨n5, t⟩⟩⟩⟩⟩ <;> simp at hlen4
        have hgroups : hexGroupsOk v 4 := hok.mp ⟨_, hres⟩
        have hv : rgbaVisitStr v = .ok (rgba n1 n2 n3 ((n4.val : ℚ) / 255)) := by
          unfold rgbaVisitStr
          rw [if_neg (by simp [hlen]), if_pos hhead, hres]
        refine ⟨?_, ?_, ?_⟩
        · rw [hv]
          simp [hhead, hlen, hgroups]
        · rw [hv]
          simp
        · rw [hv]
          simp [hhead, hlen, hgroups]
      · have hng : ¬ hexGroupsOk v 4 := herr.mp hres
        have hv : rgbaVisitStr v = .err := by
          unfold rgbaVisitStr
          rw [if_neg (by simp [hlen]), if_pos hhead, hres]
        refine ⟨?_, ?_, ?_⟩
        · rw [hv]
          simp [hng]
        · rw [hv]
          simp
        · rw [hv]
          simp [hng]
      · exact absurd hres hpanic
    · have hv : rgbaVisitStr v = .err := by
        unfold rgbaVisitStr
        rw [if_neg (by simp [hlen]), if_neg hhead]
      refine ⟨?_, ?_, ?_⟩
      · rw [hv]
        simp [hhead]
      · rw [hv]
        simp
      · rw [hv]
        simp [hhead]
  · have hv : rgbaVisitStr v = .err := by
      unfold rgbaVisitStr
      rw [if_pos hlen]
    refine ⟨?_, ?_, ?_⟩
    · rw [hv]
      simp [hlen]
    · rw [hv]
      simp
    · rw [hv]
      simp [hlen]

/-- C7 counterexample: the claim's "error iff a non-hexadecimal character
occurs after `#`" is false — `u8::from_str_radix` accepts an optional
leading `+` sign, so `"#+f2345"` decodes successfully to `rgb(15, 35, 69)`
even though `'+'` is not a hexadecimal digit and occurs after the `#`. -/
theorem claim7_decode_error_counterexample :
    rgbVisitStr ("#+f2345".toList) = DecodeResult.ok (rgb 15 35 69) ∧
    hexDigitVal '+' = none ∧ '+' ∈ ("#+f2345".toList) := by
  refine ⟨by decide, by decide, by decide⟩

/-- C7 (amended): for every input whose characters are single-byte, hex
decoding (the serde string deserialization of RGB, and of RGBA; HSL and HSLA
wrap the same decoders) returns an error if and only if the input lacks a
leading `#`, has a byte length other than 7 (resp. 9), or one of the 2-byte
groups after the `#` fails to parse as a hexadecimal `u8` (a group parses
exactly when it is two hex digits or a `+` followed by one hex digit); it
never panics on such inputs, and succeeds exactly when all three conditions
hold.  The HSL (resp. HSLA) deserializer errs exactly when the RGB (resp.
RGBA) one does. -/
theorem claim7_decode_error_condition (v : List Char)
    (hA : ∀ c ∈ v, c.utf8Size = 1) :
    ((rgbVisitStr v = .err ↔
        ¬(v.head? = some '#' ∧ utf8ByteLen v = 7 ∧ hexGroupsOk v 3)) ∧
      rgbVisitStr v ≠ .panic ∧
      ((∃ c, rgbVisitStr v = .ok c) ↔
        (v.head? = some '#' ∧ utf8ByteLen v = 7 ∧ hexGroupsOk v 3))) ∧
    ((rgbaVisitStr v = .err ↔
        ¬(v.head? = some '#' ∧ utf8ByteLen v = 9 ∧ hexGroupsOk v 4)) ∧
      rgbaVisitStr v ≠ .panic ∧
      ((∃ c, rgbaVisitStr v = .ok c) ↔
        (v.head? = some '#' ∧ utf8ByteLen v = 9 ∧ hexGroupsOk v 4))) ∧
    (deserializeHSL v = .err ↔ deserializeRGB v = .err) ∧
    (deserializeHSLA v = .err ↔ deserializeRGBA v = .err) := by
  refine ⟨rgbVisitStr_cases v hA, rgbaVisitStr_cases v hA, ?_, ?_⟩
  · unfold deserializeHSL deserializeRGB
    cases rgbVisitStr v <;> simp [DecodeResult.map]
  · unfold deserializeHSLA deserializeRGBA
    cases rgbaVisitStr v <;> simp [DecodeResult.map]

/-- Witness for C7 at the all-ASCII input `"#01020g"`: the `'g'` makes the
third group unparseable, so decoding errs. -/
theorem claim7_decode_error_condition_witness :
    rgbVisitStr ("#01020g".toList) = DecodeResult.err :=
  ((claim7_decode_error_condition ("#01020g".toList) (by decide)).1.1).mpr (by decide)

/-- C8: the decoder is not total — on the 7-byte input `"#aéxyz"` (where `é`
is the two-byte character U+00E9) the byte range `1..3` does not fall on a
character boundary, so the slice `&v[1..3]` panics instead of producing the
structured decode error the specification promises.  The unchecked vector
indexing, in contrast, is safe: a successful group collect always yields
exactly 3 (resp. 4) bytes. -/
theorem claim8_panic_on_multibyte :
    rgbVisitStr ("#aéxyz".toList) = DecodeResult.panic ∧
    utf8ByteLen ("#aéxyz".toList) = 7 := by
  refine ⟨by decide, by decide⟩

end CssColors
